import Mathlib

/-!
Verification of the Fabric-of-Space-TSL-XYZ compute pipeline.

Shallow embedding of the three GPU compute stages (JFA voxelization in
JFACompute.js, junction/centroid analysis in AnalysisCompute.js, physics
update in PhysicsCompute.js) and of the CPU analyzer (VoronoiAnalyzer.js).
Shader f32 arithmetic is modelled over the reals (or over the exact
rationals when only rational operations occur); u32 arithmetic is modelled
via Nat with explicit wrap-around modulo 2^32.
-/

/-! ### Shared vector helpers over the rationals -/

/-- Componentwise subtraction of rational 3-vectors (WGSL vec3 subtraction). -/
def qsub (a b : ℚ × ℚ × ℚ) : ℚ × ℚ × ℚ :=
  (a.1 - b.1, a.2.1 - b.2.1, a.2.2 - b.2.2)

/-- Dot product of rational 3-vectors (WGSL dot). -/
def qdot (a b : ℚ × ℚ × ℚ) : ℚ :=
  a.1 * b.1 + a.2.1 * b.2.1 + a.2.2 * b.2.2

/-! ### JFACompute.js : the jump-flooding compute shader -/

/-- Seed record of the JFA seed buffer: position and weight
(JFACompute.js SeedData struct). -/
structure SeedJ where
  position : ℚ × ℚ × ℚ
  weight : ℚ

/-- Uniforms of the JFA shader: volumeSize, stepSize, numPoints
(JFACompute.js Uniforms struct). -/
structure JFAUniforms where
  volumeSize : ℕ
  stepSize : ℕ
  numPoints : ℕ

/-- JFACompute.js calculateDistance: Euclidean distance between the two
positions, divided by the weight (`return distance / weight`). -/
noncomputable def calculateDistance (pos1 pos2 : ℚ × ℚ × ℚ) (weight : ℚ) : ℝ :=
  Real.sqrt ((qdot (qsub pos1 pos2) (qsub pos1 pos2) : ℚ) : ℝ) / (weight : ℝ)

/-- Modelled from the spec: the additive-weighted distance the spec states
for the JFA, Euclidean distance minus the seed's weight
(`dist(voxel, seed) = |voxel - seed.position| - seed.weight`).  Used only to
compare the spec's formula against `calculateDistance` from the source. -/
noncomputable def specWeightedDistance (pos1 pos2 : ℚ × ℚ × ℚ) (weight : ℚ) : ℝ :=
  Real.sqrt ((qdot (qsub pos1 pos2) (qsub pos1 pos2) : ℚ) : ℝ) - (weight : ℝ)

/-- The position the jfaStep kernel computes for a voxel:
`vec3<f32>(coords3D) / f32(volumeSize - 1u)` (u32 truncated subtraction). -/
def currentPosition (u : JFAUniforms) (c : ℤ × ℤ × ℤ) : ℚ × ℚ × ℚ :=
  ((c.1 : ℚ) / ((u.volumeSize - 1 : ℕ) : ℚ),
   (c.2.1 : ℚ) / ((u.volumeSize - 1 : ℕ) : ℚ),
   (c.2.2 : ℚ) / ((u.volumeSize - 1 : ℕ) : ℚ))

/-- The 26 neighbor offsets of the jfaStep sampling pattern, in the loop
order of the shader (dz outermost, dy, then dx innermost; the all-zero
center offset is skipped by the `continue`). -/
def jfaOffsets : List (ℤ × ℤ × ℤ) :=
  [(-1, -1, -1), (0, -1, -1), (1, -1, -1),
   (-1, 0, -1), (0, 0, -1), (1, 0, -1),
   (-1, 1, -1), (0, 1, -1), (1, 1, -1),
   (-1, -1, 0), (0, -1, 0), (1, -1, 0),
   (-1, 0, 0), (1, 0, 0),
   (-1, 1, 0), (0, 1, 0), (1, 1, 0),
   (-1, -1, 1), (0, -1, 1), (1, -1, 1),
   (-1, 0, 1), (0, 0, 1), (1, 0, 1),
   (-1, 1, 1), (0, 1, 1), (1, 1, 1)]

/-- Sample coordinate of a neighbor: `coords + offset * stepSize`. -/
def sampleCoord (u : JFAUniforms) (c off : ℤ × ℤ × ℤ) : ℤ × ℤ × ℤ :=
  (c.1 + off.1 * (u.stepSize : ℤ),
   c.2.1 + off.2.1 * (u.stepSize : ℤ),
   c.2.2 + off.2.2 * (u.stepSize : ℤ))

/-- Bounds check of the jfaStep kernel on a sample coordinate. -/
def inVolume (u : JFAUniforms) (s : ℤ × ℤ × ℤ) : Prop :=
  0 ≤ s.1 ∧ s.1 < (u.volumeSize : ℤ) ∧
  0 ≤ s.2.1 ∧ s.2.1 < (u.volumeSize : ℤ) ∧
  0 ≤ s.2.2 ∧ s.2.2 < (u.volumeSize : ℤ)

instance (u : JFAUniforms) (s : ℤ × ℤ × ℤ) : Decidable (inVolume u s) := by
  unfold inVolume; infer_instance

/-- Seed lookup `seedData[seedId]` (the shader assumes a valid index; out of
range lookups take a harmless default). -/
def seedAt (seeds : List SeedJ) (id : ℕ) : SeedJ :=
  seeds.getD id ⟨(0, 0, 0), 1⟩

/-- Weighted distance of a candidate seed id from a voxel, as the jfaStep
kernel computes it from the seed buffer. -/
noncomputable def candDist (u : JFAUniforms) (seeds : List SeedJ) (c : ℤ × ℤ × ℤ)
    (id : ℕ) : ℝ :=
  calculateDistance (currentPosition u c) (seedAt seeds id).position (seedAt seeds id).weight

/-- One update of the running (bestDistance, bestSeedId) pair: replace it
exactly when the candidate's distance is strictly smaller. -/
noncomputable def selStep (d : ℕ → ℝ) (best : ℝ × ℕ) (id : ℕ) : ℝ × ℕ :=
  if d id < best.1 then (d id, id) else best

/-- Fold of `selStep` over a candidate list. -/
noncomputable def selFold (d : ℕ → ℝ) (init : ℝ × ℕ) (l : List ℕ) : ℝ × ℕ :=
  l.foldl (selStep d) init

/-- JFACompute.js jfaStep body: scan the 26 step-offset neighbors, keeping
the valid sampled seed id of strictly smallest weighted distance, starting
from bestDistance = 999999 and the invalid sentinel id 4294967295. -/
noncomputable def jfaScan (u : JFAUniforms) (seeds : List SeedJ)
    (grid : ℤ × ℤ × ℤ → ℕ) (c : ℤ × ℤ × ℤ) : ℝ × ℕ :=
  jfaOffsets.foldl
    (fun best off =>
      let s := sampleCoord u c off
      if inVolume u s then
        if grid s < u.numPoints then
          selStep (candDist u seeds c) best (grid s)
        else best
      else best)
    (999999, 4294967295)

/-- The seed id the jfaStep kernel stores for a voxel. -/
noncomputable def jfaStep (u : JFAUniforms) (seeds : List SeedJ)
    (grid : ℤ × ℤ × ℤ → ℕ) (c : ℤ × ℤ × ℤ) : ℕ :=
  (jfaScan u seeds grid c).2

/-- The candidate seed ids a voxel's jfaStep scan actually considers: the
valid ids stored at the in-bounds step-offset neighbors, in scan order. -/
def candIds (u : JFAUniforms) (grid : ℤ × ℤ × ℤ → ℕ) (c : ℤ × ℤ × ℤ) : List ℕ :=
  jfaOffsets.filterMap
    (fun off =>
      let s := sampleCoord u c off
      if inVolume u s ∧ grid s < u.numPoints then some (grid s) else none)

/-! ### JFACompute.js : the pass schedule of runJFAPasses -/

/-- The step sizes the loop of runJFAPasses visits, starting from a given
step: `for (stepSize = n; stepSize >= 1; stepSize = floor(stepSize / 2))`. -/
def passSteps (n : ℕ) : List ℕ :=
  if h : n = 0 then [] else n :: passSteps (n / 2)
termination_by n
decreasing_by
  exact Nat.div_lt_self (Nat.pos_of_ne_zero h) one_lt_two

/-- The full step-size schedule of runJFAPasses: the loop starts at
`maxStepSize = floor(volumeSize / 2)`. -/
def runJFAPassSteps (size : ℕ) : List ℕ :=
  passSteps (size / 2)

/-! ### Generic facts about the strict-minimum selection fold -/

theorem selFold_nil (d : ℕ → ℝ) (init : ℝ × ℕ) : selFold d init [] = init := rfl

theorem selFold_cons (d : ℕ → ℝ) (init : ℝ × ℕ) (a : ℕ) (l : List ℕ) :
    selFold d init (a :: l) = selFold d (selStep d init a) l := rfl

theorem selStep_fst_le (d : ℕ → ℝ) (init : ℝ × ℕ) (a : ℕ) :
    (selStep d init a).1 ≤ init.1 := by
  unfold selStep
  split
  · exact le_of_lt (by assumption)
  · exact le_rfl

theorem selFold_fst_le (d : ℕ → ℝ) (l : List ℕ) (init : ℝ × ℕ) :
    (selFold d init l).1 ≤ init.1 := by
  induction l generalizing init with
  | nil => exact le_rfl
  | cons a l ih =>
      rw [selFold_cons]
      exact le_trans (ih (selStep d init a)) (selStep_fst_le d init a)

theorem selFold_fst_le_of_mem (d : ℕ → ℝ) (l : List ℕ) (init : ℝ × ℕ)
    (id : ℕ) (h : id ∈ l) : (selFold d init l).1 ≤ d id := by
  induction l generalizing init with
  | nil => cases h
  | cons a l ih =>
      rw [selFold_cons]
      rcases List.mem_cons.mp h with rfl | hmem
      · refine le_trans (selFold_fst_le d l (selStep d init id)) ?_
        unfold selStep
        split
        · exact le_rfl
        · exact le_of_not_lt (by assumption)
      · exact ih (selStep d init a) hmem

theorem selFold_eq_init_or_mem (d : ℕ → ℝ) (l : List ℕ) (init : ℝ × ℕ) :
    selFold d init l = init ∨
      ((selFold d init l).2 ∈ l ∧ (selFold d init l).1 = d (selFold d init l).2) := by
  induction l generalizing init with
  | nil => exact Or.inl rfl
  | cons a l ih =>
      rw [selFold_cons]
      rcases ih (selStep d init a) with heq | hmem
      · rw [heq]
        unfold selStep
        split
        · exact Or.inr ⟨List.mem_cons_self a l, rfl⟩
        · exact Or.inl rfl
      · exact Or.inr ⟨List.mem_cons_of_mem a hmem.1, hmem.2⟩

theorem selFold_stable (d : ℕ → ℝ) (l : List ℕ) (best : ℝ × ℕ)
    (h : ∀ j ∈ l, best.1 ≤ d j) : selFold d best l = best := by
  induction l with
  | nil => rfl
  | cons a l ih =>
      rw [selFold_cons]
      have ha : best.1 ≤ d a := h a (List.mem_cons_self a l)
      have hstep : selStep d best a = best := by
        unfold selStep
        exact if_neg (not_lt.mpr ha)
      rw [hstep]
      exact ih (fun j hj => h j (List.mem_cons_of_mem a hj))

theorem selFold_first_wins (d : ℕ → ℝ) (a : ℕ) (l : List ℕ) (init : ℝ × ℕ)
    (ha : d a < init.1) (h : ∀ j ∈ l, d a ≤ d j) :
    (selFold d init (a :: l)).2 = a := by
  rw [selFold_cons]
  have hstep : selStep d init a = (d a, a) := by
    unfold selStep
    exact if_pos ha
  rw [hstep, selFold_stable d l (d a, a) h]

theorem jfaFold_eq_selFold (u : JFAUniforms) (seeds : List SeedJ)
    (grid : ℤ × ℤ × ℤ → ℕ) (c : ℤ × ℤ × ℤ) (l : List (ℤ × ℤ × ℤ)) :
    ∀ init : ℝ × ℕ,
      l.foldl
        (fun best off =>
          let s := sampleCoord u c off
          if inVolume u s then
            if grid s < u.numPoints then
              selStep (candDist u seeds c) best (grid s)
            else best
          else best)
        init =
      selFold (candDist u seeds c) init
        (l.filterMap
          (fun off =>
            let s := sampleCoord u c off
            if inVolume u s ∧ grid s < u.numPoints then some (grid s) else none)) := by
  induction l with
  | nil => intro init; rfl
  | cons off offs ih =>
      intro init
      rw [List.foldl_cons, List.filterMap_cons]
      by_cases hv : inVolume u (sampleCoord u c off)
      · by_cases hn : grid (sampleCoord u c off) < u.numPoints
        · simp only [hv, hn, if_pos, and_self, if_true]
          rw [ih, selFold_cons]
        · simp only [hv, hn, if_pos, if_neg, and_false, if_false]
          exact ih _
      · simp only [hv, if_neg, false_and, if_false]
        exact ih _

/-- The jfaStep scan is exactly the strict-minimum selection fold over the
valid neighbor candidates. -/
theorem jfaScan_eq_selFold (u : JFAUniforms) (seeds : List SeedJ)
    (grid : ℤ × ℤ × ℤ → ℕ) (c : ℤ × ℤ × ℤ) :
    jfaScan u seeds grid c =
      selFold (candDist u seeds c) (999999, 4294967295) (candIds u grid c) := by
  unfold jfaScan candIds
  exact jfaFold_eq_selFold u seeds grid c jfaOffsets (999999, 4294967295)

theorem jfaScan_fst_eq_dist (u : JFAUniforms) (seeds : List SeedJ)
    (grid : ℤ × ℤ × ℤ → ℕ) (c : ℤ × ℤ × ℤ)
    (h : ∃ id ∈ candIds u grid c, candDist u seeds c id < 999999) :
    (jfaScan u seeds grid c).2 ∈ candIds u grid c ∧
      (jfaScan u seeds grid c).1 = candDist u seeds c (jfaScan u seeds grid c).2 := by
  obtain ⟨id, hid, hlt⟩ := h
  rw [jfaScan_eq_selFold]
  rcases selFold_eq_init_or_mem (candDist u seeds c) (candIds u grid c)
      (999999, 4294967295) with heq | hmem
  · exfalso
    have hle := selFold_fst_le_of_mem (candDist u seeds c) (candIds u grid c)
      (999999, 4294967295) id hid
    rw [heq] at hle
    exact absurd (lt_of_le_of_lt hle hlt) (lt_irrefl _)
  · exact hmem

/-! ### Embedding of PhysicsCompute.js (the physics compute shader) -/

/-- Componentwise subtraction of real 3-vectors. -/
def rsub (a b : ℝ × ℝ × ℝ) : ℝ × ℝ × ℝ :=
  (a.1 - b.1, a.2.1 - b.2.1, a.2.2 - b.2.2)

/-- Componentwise addition of real 3-vectors. -/
def radd (a b : ℝ × ℝ × ℝ) : ℝ × ℝ × ℝ :=
  (a.1 + b.1, a.2.1 + b.2.1, a.2.2 + b.2.2)

/-- Scalar multiple of a real 3-vector. -/
def rsmul (t : ℝ) (a : ℝ × ℝ × ℝ) : ℝ × ℝ × ℝ :=
  (t * a.1, t * a.2.1, t * a.2.2)

/-- Dot product of real 3-vectors. -/
def rdot (a b : ℝ × ℝ × ℝ) : ℝ :=
  a.1 * b.1 + a.2.1 * b.2.1 + a.2.2 * b.2.2

/-- WGSL clamp on scalars: `min(max(x, lo), hi)`. -/
noncomputable def clampR (x lo hi : ℝ) : ℝ := min (max x lo) hi

/-- WGSL componentwise clamp of a vec3 against scalar bounds. -/
noncomputable def clamp3 (v : ℝ × ℝ × ℝ) (lo hi : ℝ) : ℝ × ℝ × ℝ :=
  (clampR v.1 lo hi, clampR v.2.1 lo hi, clampR v.2.2 lo hi)

/-- Seed record of the physics seed buffer (PhysicsCompute.js SeedData). -/
structure PSeed where
  position : ℝ × ℝ × ℝ
  centroid : ℝ × ℝ × ℝ
  acuteCount : ℝ
  voxelCount : ℝ

/-- Physics uniforms (PhysicsCompute.js PhysicsUniforms); mode is the f32
encoding 0 = balanced, 1 = growthOnly, 2 = shrinkOnly, 3 = inverse. -/
structure PhysicsUniforms where
  threshold : ℝ
  growthRate : ℝ
  mode : ℝ
  k : ℝ
  damping : ℝ
  maxDelta : ℝ
  growthPower : ℝ

/-- The flux decision of the physics shader main (PhysicsCompute.js): given
mode, threshold and the seed's acute-count score, the (shouldGrow,
fluxMagnitude) pair produced by the mode branch chain. -/
noncomputable def fluxDecision (mode threshold score : ℝ) : Bool × ℝ :=
  if mode = 0 then
    (if score > threshold then (true, score - threshold)
     else if score < threshold then (false, threshold - score)
     else (false, 0))
  else if mode = 1 then
    (if score > threshold then (true, score - threshold) else (false, 0))
  else if mode = 2 then
    (if score > threshold then (false, score - threshold) else (false, 0))
  else if mode = 3 then
    (if score > threshold then (false, score - threshold)
     else if score < threshold then (true, threshold - score)
     else (false, 0))
  else (false, 0)

/-- The shader's hash function:
`f32((x * 2654435761u) % 2147483647u) / 2147483647.0`, with the u32
multiplication wrapping modulo 2^32. -/
noncomputable def pcHash (x : ℕ) : ℝ :=
  (((x * 2654435761) % 4294967296 % 2147483647 : ℕ) : ℝ) / 2147483647

/-- calculateFallbackCentroid of the physics shader: a deterministic offset
of the position derived from the seed index. -/
noncomputable def calculateFallbackCentroid (index : ℕ) (position : ℝ × ℝ × ℝ) :
    ℝ × ℝ × ℝ :=
  let h := (index * 2654435761) % 4294967296
  radd position
    ((pcHash h - 0.5) * 0.1, (pcHash (h + 1000) - 0.5) * 0.1, (pcHash (h + 2000) - 0.5) * 0.1)

/-- The signed raw flux of the physics shader: the non-linear growth power
applied to a positive flux magnitude, negated when the seed should shrink. -/
noncomputable def rawFluxOf (u : PhysicsUniforms) (score : ℝ) : ℝ :=
  let gd := fluxDecision u.mode u.threshold score
  if gd.2 > 0 then
    (if gd.1 then gd.2 ^ u.growthPower else -(gd.2 ^ u.growthPower))
  else 0

/-- The per-seed body of the physics compute shader main: returns the updated
seed record and the stored previousDelta.  A zero rawFlux returns early,
leaving both untouched. -/
noncomputable def physicsMain (u : PhysicsUniforms) (index : ℕ) (seed : PSeed)
    (prevDelta : ℝ) : PSeed × ℝ :=
  let rawFlux := rawFluxOf u seed.acuteCount
  if rawFlux = 0 then (seed, prevDelta)
  else
    let centroidDistance :=
      Real.sqrt (rdot (rsub seed.position seed.centroid) (rsub seed.position seed.centroid))
    let centroid :=
      if centroidDistance < 1e-6 then calculateFallbackCentroid index seed.position
      else seed.centroid
    let direction0 := rsub seed.position centroid
    let len := Real.sqrt (rdot direction0 direction0)
    let direction :=
      if len < 1e-6 then
        ((pcHash index - 0.5) * 0.01, (pcHash (index + 1000) - 0.5) * 0.01,
         (pcHash (index + 2000) - 0.5) * 0.01)
      else (direction0.1 / len, direction0.2.1 / len, direction0.2.2 / len)
    let delta0 := u.k * rawFlux * u.growthRate
    let delta1 := u.damping * prevDelta + (1 - u.damping) * delta0
    let delta := clampR delta1 (-u.maxDelta) u.maxDelta
    let newPosition := clamp3 (radd seed.position (rsmul delta direction)) (-0.9) 0.9
    ({ seed with position := newPosition }, delta)

/-! ### Embedding of AnalysisCompute.js (the analysis compute shader) -/

/-- toWorldSpace of the analysis shader, per axis: `(coord / size) * 2 - 1`. -/
def worldCoordAxis (size : ℕ) (c : ℤ) : ℚ :=
  ((c : ℚ) / (size : ℚ)) * 2 - 1

/-- toWorldSpace of the analysis shader on a full coordinate. -/
def toWorldSpace (size : ℕ) (c : ℤ × ℤ × ℤ) : ℚ × ℚ × ℚ :=
  (worldCoordAxis size c.1, worldCoordAxis size c.2.1, worldCoordAxis size c.2.2)

/-- WGSL `i32(x)` conversion of a u32 texture value: two's-complement
reinterpretation of the value modulo 2^32. -/
def toI32 (n : ℕ) : ℤ :=
  if n % 4294967296 < 2147483648 then ((n % 4294967296 : ℕ) : ℤ)
  else ((n % 4294967296 : ℕ) : ℤ) - 4294967296

/-- getCellID of the analysis shader: -1 for an out-of-bounds coordinate and
for any stored value outside [0, numSeeds), otherwise the stored cell id. -/
def getCellID (grid : ℤ × ℤ × ℤ → ℕ) (size numSeeds : ℕ) (c : ℤ × ℤ × ℤ) : ℤ :=
  if c.1 < 0 ∨ (size : ℤ) ≤ c.1 ∨ c.2.1 < 0 ∨ (size : ℤ) ≤ c.2.1 ∨
      c.2.2 < 0 ∨ (size : ℤ) ≤ c.2.2 then -1
  else
    let cellId := toI32 (grid c)
    if (numSeeds : ℤ) ≤ cellId ∨ cellId < 0 then -1 else cellId

/-- The eight corner offsets of the 2x2x2 junction-detection cube, in the
order the shader samples them. -/
def cubeCorners : List (ℤ × ℤ × ℤ) :=
  [(0, 0, 0), (1, 0, 0), (0, 1, 0), (1, 1, 0),
   (0, 0, 1), (1, 0, 1), (0, 1, 1), (1, 1, 1)]

/-- The cell ids at the eight cube corners around a voxel. -/
def cornerIds (grid : ℤ × ℤ × ℤ → ℕ) (size numSeeds : ℕ) (c : ℤ × ℤ × ℤ) : List ℤ :=
  cubeCorners.map
    (fun d => getCellID grid size numSeeds (c.1 + d.1, c.2.1 + d.2.1, c.2.2 + d.2.2))

/-- The uniqueIDs accumulation of the analysis shader: keep each id that is
valid (`id >= 0`) and not already collected. -/
def uniqueValid (l : List ℤ) : List ℤ :=
  l.foldl (fun acc id => if 0 ≤ id ∧ id ∉ acc then acc ++ [id] else acc) []

/-- The analysis shader's junction test on a 2x2x2 cube: at least three
distinct valid cell ids among the corners (`uniqueCount >= 3`). -/
def isJunctionGPU (grid : ℤ × ℤ × ℤ → ℕ) (size numSeeds : ℕ) (c : ℤ × ℤ × ℤ) : Prop :=
  3 ≤ (uniqueValid (cornerIds grid size numSeeds c)).length

instance (grid : ℤ × ℤ × ℤ → ℕ) (size numSeeds : ℕ) (c : ℤ × ℤ × ℤ) :
    Decidable (isJunctionGPU grid size numSeeds c) := by
  unfold isJunctionGPU; infer_instance

/-- Fixed-point encoding of one world coordinate in the centroid
accumulation: `u32((worldPos + 1.0) * 1000000.0)` (truncation of a
nonnegative value is the floor). -/
def encodeFixed (size : ℕ) (c : ℤ) : ℕ :=
  (⌊(worldCoordAxis size c + 1) * 1000000⌋).toNat

/-- The per-axis atomic accumulator sum of the centroid pass over a list of
owned voxel coordinates: a u32 sum, wrapping modulo 2^32. -/
def accumFixed (size : ℕ) (cs : List ℤ) : ℕ :=
  ((cs.map (encodeFixed size)).sum) % 4294967296

/-- Centroid decoding of AnalysisCompute.finalizeCentroids:
`(sum / 1000000.0) / voxelCount - 1.0`. -/
def decodeCentroidComponent (sum count : ℕ) : ℚ :=
  ((sum : ℚ) / 1000000) / (count : ℚ) - 1

/-- The centroid-pass body of the analysis shader for one voxel: when the
voxel's cell id is valid, atomically add the fixed-point encoded world
coordinates and bump the voxel counter of that cell; otherwise leave the
accumulators untouched.  Accumulator entries are u32 quadruples
(positionSumX, positionSumY, positionSumZ, voxelCount). -/
def centroidAccumStep (grid : ℤ × ℤ × ℤ → ℕ) (size numSeeds : ℕ)
    (acc : ℕ → ℕ × ℕ × ℕ × ℕ) (c : ℤ × ℤ × ℤ) : ℕ → ℕ × ℕ × ℕ × ℕ :=
  let cellID := getCellID grid size numSeeds c
  if 0 ≤ cellID ∧ cellID < (numSeeds : ℤ) then
    fun k =>
      if k = cellID.toNat then
        let a := acc k
        ((a.1 + encodeFixed size c.1) % 4294967296,
         (a.2.1 + encodeFixed size c.2.1) % 4294967296,
         (a.2.2.1 + encodeFixed size c.2.2) % 4294967296,
         (a.2.2.2 + 1) % 4294967296)
      else acc k
  else acc

/-- A row of the CPU-side seed array finalizeCentroids rebuilds: position,
centroid, acuteCount, voxelCount (the 8 floats per seed). -/
structure SeedRow where
  position : ℚ × ℚ × ℚ
  centroid : ℚ × ℚ × ℚ
  acuteCount : ℚ
  voxelCount : ℚ

/-- One entry of the array AnalysisCompute.finalizeCentroids constructs: the
array starts zero-filled, and only the centroid and voxelCount slots are
written, and only when the atomic voxelCount is positive. -/
def finalizeCentroidsEntry (atomic : ℕ × ℕ × ℕ × ℕ) : SeedRow :=
  if 0 < atomic.2.2.2 then
    { position := (0, 0, 0),
      centroid := (decodeCentroidComponent atomic.1 atomic.2.2.2,
                   decodeCentroidComponent atomic.2.1 atomic.2.2.2,
                   decodeCentroidComponent atomic.2.2.1 atomic.2.2.2),
      acuteCount := 0,
      voxelCount := (atomic.2.2.2 : ℚ) }
  else
    { position := (0, 0, 0), centroid := (0, 0, 0), acuteCount := 0, voxelCount := 0 }

/-- AnalysisCompute.finalizeCentroids as a whole: the freshly built array is
written over the first numSeeds entries of the seed buffer; entries beyond
numSeeds keep their old contents. -/
def finalizeCentroidsPass (atomicData : ℕ → ℕ × ℕ × ℕ × ℕ) (old : ℕ → SeedRow)
    (numSeeds : ℕ) : ℕ → SeedRow :=
  fun i => if i < numSeeds then finalizeCentroidsEntry (atomicData i) else old i

/-! ### Junction angle pass of the analysis shader -/

/-- WGSL normalize: the vector divided by its Euclidean length. -/
noncomputable def normalizeV (v : ℝ × ℝ × ℝ) : ℝ × ℝ × ℝ :=
  (v.1 / Real.sqrt (rdot v v), v.2.1 / Real.sqrt (rdot v v), v.2.2 / Real.sqrt (rdot v v))

/-- The angle the analysis shader computes for a pair of seeds at a
junction: `acos(clamp(dot(normalize(A - j), normalize(B - j)), -1, 1))`. -/
noncomputable def pairAngle (posA posB j : ℝ × ℝ × ℝ) : ℝ :=
  Real.arccos (clampR (rdot (normalizeV (rsub posA j)) (normalizeV (rsub posB j))) (-1) 1)

/-- The inner pair body of the junction loop: when both ids are in range and
the pair's angle is below the shader's threshold constant 1.5707963, both
seeds' acute counters receive an atomic increment of one. -/
noncomputable def pairStep (seeds : ℕ → ℝ × ℝ × ℝ) (j : ℝ × ℝ × ℝ) (numSeeds : ℕ)
    (counts : ℕ → ℕ) (p : ℕ × ℕ) : ℕ → ℕ :=
  if p.1 < numSeeds ∧ p.2 < numSeeds then
    if pairAngle (seeds p.1) (seeds p.2) j < 1.5707963 then
      fun k => counts k + (if k = p.1 then 1 else 0) + (if k = p.2 then 1 else 0)
    else counts
  else counts

/-! ### Embedding of the CPU VoronoiAnalyzer.js -/

/-- getCellID of VoronoiAnalyzer._findJunctions: read the alpha channel of
the RGBA voxel buffer, treat values below 0.001 as unassigned (-1), else
decode the seed index as `round(alpha * numSeeds) - 1`. -/
def cpuGetCellID (buffer : ℕ → ℚ) (numSeeds width height depth : ℕ)
    (x y z : ℤ) : ℤ :=
  if x < 0 ∨ (width : ℤ) ≤ x ∨ y < 0 ∨ (height : ℤ) ≤ y ∨ z < 0 ∨ (depth : ℤ) ≤ z then -1
  else
    let a := buffer ((z * width * height + y * width + x).toNat * 4 + 3)
    if a < 1 / 1000 then -1
    else round (a * (numSeeds : ℚ)) - 1

/-- The corner cell ids of a 2x2x2 cube in the CPU analyzer, in sampling
order. -/
def cpuCornerIds (buffer : ℕ → ℚ) (numSeeds width height depth : ℕ)
    (x y z : ℤ) : List ℤ :=
  cubeCorners.map
    (fun d => cpuGetCellID buffer numSeeds width height depth (x + d.1) (y + d.2.1)
      (z + d.2.2))

/-- The set of corner cell ids of a 2x2x2 cube in the CPU analyzer (a JS
Set: distinct values), with the invalid id -1 removed. -/
def cpuCubeIdSet (buffer : ℕ → ℚ) (numSeeds width height depth : ℕ)
    (x y z : ℤ) : Finset ℤ :=
  (cpuCornerIds buffer numSeeds width height depth x y z).toFinset.erase (-1)

/-- The junction test of VoronoiAnalyzer._findJunctions: at least FOUR
distinct valid cell ids in the 2x2x2 cube (`cellIDs.size >= 4`). -/
def cpuIsJunction (buffer : ℕ → ℚ) (numSeeds width height depth : ℕ)
    (x y z : ℤ) : Prop :=
  4 ≤ (cpuCubeIdSet buffer numSeeds width height depth x y z).card

instance (buffer : ℕ → ℚ) (numSeeds width height depth : ℕ) (x y z : ℤ) :
    Decidable (cpuIsJunction buffer numSeeds width height depth x y z) := by
  unfold cpuIsJunction; infer_instance

/-- A seed record of the CPU VoronoiAnalyzer during centroid summation. -/
structure CSeed where
  position : ℚ × ℚ × ℚ
  positionSum : ℚ × ℚ × ℚ
  voxelCount : ℕ
  centroid : ℚ × ℚ × ℚ

/-- The per-seed finalization of VoronoiAnalyzer._calculateVoxelSummation:
divide the position sum by the voxel count and map to world space, or fall
back to the seed's own position when the cell owns no voxels.  Only the
centroid field is assigned. -/
def cpuFinalizeCentroid (width height depth : ℕ) (seed : CSeed) : CSeed :=
  if 0 < seed.voxelCount then
    { seed with centroid :=
        ((seed.positionSum.1 / seed.voxelCount / width) * 2 - 1,
         (seed.positionSum.2.1 / seed.voxelCount / height) * 2 - 1,
         (seed.positionSum.2.2 / seed.voxelCount / depth) * 2 - 1) }
  else
    { seed with centroid := seed.position }

/-- The flux decision switch of the CPU PhysicsEngine
(applyGrowthAlgorithm): same mode table keyed by the mode string. -/
def cpuFluxDecision (mode : String) (threshold score : ℚ) : Bool × ℚ :=
  if mode = "balanced" then
    (if score > threshold then (true, score - threshold)
     else if score < threshold then (false, threshold - score)
     else (false, 0))
  else if mode = "growthOnly" then
    (if score > threshold then (true, score - threshold) else (false, 0))
  else if mode = "shrinkOnly" then
    (if score > threshold then (false, score - threshold) else (false, 0))
  else if mode = "inverse" then
    (if score > threshold then (false, score - threshold)
     else if score < threshold then (true, threshold - score)
     else (false, 0))
  else (false, 0)

/-! ### Concrete instances used by witnesses and counterexamples -/

/-- A 2-cubed, single-step, single-seed JFA configuration. -/
def exU : JFAUniforms := ⟨2, 1, 1⟩

/-- One seed sitting at the origin with weight 1. -/
def exSeeds : List SeedJ := [⟨(0, 0, 0), 1⟩]

/-- A grid assigning every voxel to seed 0. -/
def exGridZero : ℤ × ℤ × ℤ → ℕ := fun _ => 0

/-- A 4-cubed configuration in its first flood pass (step size 2). -/
def exU2 : JFAUniforms := ⟨4, 2, 1⟩

/-- A grid where only voxel (1,1,1) holds a valid id and every other voxel
is the unassigned sentinel. -/
def exGridLone : ℤ × ℤ × ℤ → ℕ :=
  fun c => if c = (1, 1, 1) then 0 else 4294967295

/-! ### Claim C1 -/

/-- C1 counterexample: the shader's calculateDistance divides the Euclidean
distance by the weight instead of subtracting the weight.  At positions
(0,0,0) and (1,0,0) with weight 2 the code yields 1/2 while the claimed
additive-weighted formula yields -1. -/
theorem jfa_distance_counterexample :
    calculateDistance (0, 0, 0) (1, 0, 0) 2 = 1 / 2 ∧
      specWeightedDistance (0, 0, 0) (1, 0, 0) 2 = -1 ∧
      calculateDistance (0, 0, 0) (1, 0, 0) 2 ≠
        specWeightedDistance (0, 0, 0) (1, 0, 0) 2 := by
  have hq : (qdot (qsub ((0 : ℚ), (0 : ℚ), (0 : ℚ)) (1, 0, 0))
      (qsub (0, 0, 0) (1, 0, 0)) : ℚ) = 1 := by
    norm_num [qdot, qsub]
  constructor
  · rw [calculateDistance, hq]
    norm_num
  constructor
  · rw [specWeightedDistance, hq]
    norm_num
  · rw [calculateDistance, specWeightedDistance, hq]
    norm_num

/-- C1 (amended): the JFA computes the weighted distance as the Euclidean
distance from the voxel's shader position to the seed position DIVIDED by
the seed's weight, and whenever any neighbor candidate beats the 999999
sentinel the voxel is assigned a candidate generator minimizing this
distance over the candidate set. -/
theorem jfa_assigns_distance_minimizer (u : JFAUniforms) (seeds : List SeedJ)
    (grid : ℤ × ℤ × ℤ → ℕ) (c : ℤ × ℤ × ℤ)
    (h : ∃ id ∈ candIds u grid c, candDist u seeds c id < 999999) :
    jfaStep u seeds grid c ∈ candIds u grid c ∧
      ∀ id ∈ candIds u grid c,
        candDist u seeds c (jfaStep u seeds grid c) ≤ candDist u seeds c id := by
  obtain ⟨hmem, heq⟩ := jfaScan_fst_eq_dist u seeds grid c h
  refine ⟨hmem, fun id hid => ?_⟩
  have hle := selFold_fst_le_of_mem (candDist u seeds c) (candIds u grid c)
    (999999, 4294967295) id hid
  rw [← jfaScan_eq_selFold] at hle
  unfold jfaStep
  rw [← heq]
  exact hle

/-- C1 witness: in a 2-cubed volume with one seed at the voxel's own shader
position, the candidate set contains id 0 at distance 0, and the theorem
applies. -/
theorem jfa_assigns_distance_minimizer_witness :
    ((0 ∈ candIds exU exGridZero (0, 0, 0)) ∧
      candDist exU exSeeds (0, 0, 0) 0 < 999999) ∧
      (jfaStep exU exSeeds exGridZero (0, 0, 0) ∈ candIds exU exGridZero (0, 0, 0) ∧
        ∀ id ∈ candIds exU exGridZero (0, 0, 0),
          candDist exU exSeeds (0, 0, 0) (jfaStep exU exSeeds exGridZero (0, 0, 0)) ≤
            candDist exU exSeeds (0, 0, 0) id) := by
  have hmem : 0 ∈ candIds exU exGridZero (0, 0, 0) := by decide
  have hd : candDist exU exSeeds (0, 0, 0) 0 < 999999 := by
    have : candDist exU exSeeds (0, 0, 0) 0 = 0 := by
      rw [candDist, calculateDistance]
      norm_num [seedAt, exSeeds, currentPosition, exU, qsub, qdot]
    rw [this]
    norm_num
  exact ⟨⟨hmem, hd⟩,
    jfa_assigns_distance_minimizer exU exSeeds exGridZero (0, 0, 0) ⟨0, hmem, hd⟩⟩

/-! ### Claim C2 -/

theorem jfaOffsets_ne_zero : ∀ off ∈ jfaOffsets, off ≠ ((0 : ℤ), (0 : ℤ), (0 : ℤ)) := by
  decide

theorem sampleCoord_ne_self (u : JFAUniforms) (c off : ℤ × ℤ × ℤ)
    (hstep : 1 ≤ u.stepSize) (hoff : off ≠ ((0 : ℤ), (0 : ℤ), (0 : ℤ))) :
    sampleCoord u c off ≠ c := by
  intro heq
  apply hoff
  have hstep' : (u.stepSize : ℤ) ≠ 0 := by
    have : (1 : ℤ) ≤ (u.stepSize : ℤ) := by exact_mod_cast hstep
    omega
  obtain ⟨h1, h2, h3⟩ : c.1 + off.1 * (u.stepSize : ℤ) = c.1 ∧
      c.2.1 + off.2.1 * (u.stepSize : ℤ) = c.2.1 ∧
      c.2.2 + off.2.2 * (u.stepSize : ℤ) = c.2.2 := by
    have h1 := congrArg Prod.fst heq
    have h2 := congrArg (fun p => p.2.1) heq
    have h3 := congrArg (fun p => p.2.2) heq
    exact ⟨h1, h2, h3⟩
  have e1 : off.1 = 0 := by
    rcases mul_eq_zero.mp (by omega : off.1 * (u.stepSize : ℤ) = 0) with h | h
    · exact h
    · exact absurd h hstep'
  have e2 : off.2.1 = 0 := by
    rcases mul_eq_zero.mp (by omega : off.2.1 * (u.stepSize : ℤ) = 0) with h | h
    · exact h
    · exact absurd h hstep'
  have e3 : off.2.2 = 0 := by
    rcases mul_eq_zero.mp (by omega : off.2.2 * (u.stepSize : ℤ) = 0) with h | h
    · exact h
    · exact absurd h hstep'
  exact Prod.ext e1 (Prod.ext e2 e3)

theorem jfaStep_ignores_own_cell (u : JFAUniforms) (seeds : List SeedJ)
    (grid : ℤ × ℤ × ℤ → ℕ) (c : ℤ × ℤ × ℤ) (v : ℕ) (hstep : 1 ≤ u.stepSize) :
    jfaStep u seeds (Function.update grid c v) c = jfaStep u seeds grid c := by
  unfold jfaStep jfaScan
  congr 1
  apply List.foldl_ext
  intro best off hoff
  have hne : sampleCoord u c off ≠ c :=
    sampleCoord_ne_self u c off hstep (jfaOffsets_ne_zero off hoff)
  simp only [Function.update_noteq hne]

/-- C2 counterexample: in the first flood pass of a 4-cubed volume
(step size 2), a voxel validly assigned to seed 0 whose step-offset
neighbors are all unassigned has an empty candidate set — so no candidate
has strictly smaller distance than the current owner — yet the shader
discards the owner and stores the invalid sentinel: the voxel's own current
assignment is not among the candidates. -/
theorem jfa_own_assignment_counterexample :
    jfaStep exU2 exSeeds exGridLone (1, 1, 1) ≠ exGridLone (1, 1, 1) ∧
      exGridLone (1, 1, 1) < exU2.numPoints ∧
      candIds exU2 exGridLone (1, 1, 1) = [] := by
  have hc : candIds exU2 exGridLone (1, 1, 1) = [] := by decide
  have hstep : jfaStep exU2 exSeeds exGridLone (1, 1, 1) = 4294967295 := by
    rw [jfaStep, jfaScan_eq_selFold, hc]
    rfl
  refine ⟨?_, by decide, hc⟩
  rw [hstep]
  decide

/-- C2 (amended): the candidate set of a JFA flood step consists only of the
valid ids at the 26 step-offset neighbors — the voxel's own current
assignment is not consulted (the result is invariant under rewriting the
voxel's own cell), the step reduces to the strict-minimum selection fold
over those neighbor candidates starting from the 999999/invalid sentinel,
and on an exact distance tie the earliest-scanned candidate is kept (a
later candidate only wins with strictly smaller distance). -/
theorem jfa_candidates_are_neighbors (u : JFAUniforms) (seeds : List SeedJ)
    (grid : ℤ × ℤ × ℤ → ℕ) (c : ℤ × ℤ × ℤ) (v : ℕ) :
    (1 ≤ u.stepSize →
        jfaStep u seeds (Function.update grid c v) c = jfaStep u seeds grid c) ∧
      jfaStep u seeds grid c =
        (selFold (candDist u seeds c) (999999, 4294967295) (candIds u grid c)).2 ∧
      ∀ id rest, candDist u seeds c id < 999999 →
        (∀ jd ∈ rest, candDist u seeds c id ≤ candDist u seeds c jd) →
        (selFold (candDist u seeds c) (999999, 4294967295) (id :: rest)).2 = id := by
  refine ⟨fun hstep => jfaStep_ignores_own_cell u seeds grid c v hstep, ?_, ?_⟩
  · rw [jfaStep, jfaScan_eq_selFold]
  · intro id rest hlt hall
    exact selFold_first_wins (candDist u seeds c) id rest (999999, 4294967295) hlt hall

/-- C2 witness: the theorem applied in the 2-cubed single-seed
configuration, with step size 1, the all-zero grid rewritten at the scanned
voxel, and the singleton tie list. -/
theorem jfa_candidates_are_neighbors_witness :
    (1 ≤ exU.stepSize ∧ candDist exU exSeeds (0, 0, 0) 0 < 999999) ∧
      jfaStep exU exSeeds (Function.update exGridZero (0, 0, 0) 7) (0, 0, 0) =
        jfaStep exU exSeeds exGridZero (0, 0, 0) ∧
      (selFold (candDist exU exSeeds (0, 0, 0)) (999999, 4294967295) [0]).2 = 0 := by
  have hstep : 1 ≤ exU.stepSize := by decide
  have hd : candDist exU exSeeds (0, 0, 0) 0 < 999999 := by
    have : candDist exU exSeeds (0, 0, 0) 0 = 0 := by
      rw [candDist, calculateDistance]
      norm_num [seedAt, exSeeds, currentPosition, exU, qsub, qdot]
    rw [this]
    norm_num
  have h := jfa_candidates_are_neighbors exU exSeeds exGridZero (0, 0, 0) 7
  exact ⟨⟨hstep, hd⟩, h.1 hstep,
    h.2.2 0 [] hd (fun jd hjd => absurd hjd (List.not_mem_nil jd))⟩

/-! ### Claim C9 -/

theorem passSteps_eq (n : ℕ) :
    passSteps n = if n = 0 then [] else n :: passSteps (n / 2) := by
  rw [passSteps]
  split <;> simp_all

theorem passSteps_zero : passSteps 0 = [] := by
  rw [passSteps_eq]
  norm_num

theorem passSteps_length (n : ℕ) (hn : 1 ≤ n) :
    (passSteps n).length = Nat.log 2 n + 1 := by
  induction n using Nat.strong_induction_on with
  | _ n ih =>
      rcases Nat.lt_or_ge n 2 with h2 | h2
      · interval_cases n
        rw [passSteps_eq]
        norm_num [passSteps_zero, Nat.log_one_right]
      · have hne : n ≠ 0 := by omega
        rw [passSteps_eq, if_neg hne]
        have hdiv : 1 ≤ n / 2 := Nat.one_le_div_iff (by norm_num) |>.mpr h2
        have hlt : n / 2 < n := Nat.div_lt_self (by omega) (by norm_num)
        have hlen := ih (n / 2) hlt hdiv
        have hlog : Nat.log 2 (n / 2) = Nat.log 2 n - 1 := Nat.log_div_base 2 n
        have hpos : 0 < Nat.log 2 n := Nat.log_pos (by norm_num) h2
        simp only [List.length_cons, hlen, hlog]
        omega

theorem passSteps_mem_one (n : ℕ) (hn : 1 ≤ n) : 1 ∈ passSteps n := by
  induction n using Nat.strong_induction_on with
  | _ n ih =>
      rcases Nat.lt_or_ge n 2 with h2 | h2
      · interval_cases n
        rw [passSteps_eq]
        norm_num
      · have hne : n ≠ 0 := by omega
        rw [passSteps_eq, if_neg hne]
        have hdiv : 1 ≤ n / 2 := Nat.one_le_div_iff (by norm_num) |>.mpr h2
        have hlt : n / 2 < n := Nat.div_lt_self (by omega) (by norm_num)
        exact List.mem_cons_of_mem n (ih (n / 2) hlt hdiv)

theorem passSteps_all_pos (n : ℕ) : ∀ s ∈ passSteps n, 1 ≤ s := by
  induction n using Nat.strong_induction_on with
  | _ n ih =>
      intro s hs
      rcases Nat.eq_zero_or_pos n with rfl | hpos
      · rw [passSteps_eq] at hs
        simp at hs
      · rw [passSteps_eq, if_neg (by omega)] at hs
        rcases List.mem_cons.mp hs with rfl | hmem
        · exact hpos
        · exact ih (n / 2) (Nat.div_lt_self hpos (by norm_num)) s hmem

theorem passSteps_head (n : ℕ) (hn : 1 ≤ n) : (passSteps n).head? = some n := by
  rw [passSteps_eq, if_neg (by omega)]
  rfl

theorem passSteps_chain (n : ℕ) :
    List.Chain' (fun a b => b = a / 2) (passSteps n) := by
  induction n using Nat.strong_induction_on with
  | _ n ih =>
      rcases Nat.eq_zero_or_pos n with rfl | hpos
      · rw [passSteps_eq]
        simp
      · rw [passSteps_eq, if_neg (by omega)]
        rw [List.chain'_cons']
        refine ⟨?_, ih (n / 2) (Nat.div_lt_self hpos (by norm_num))⟩
        intro b hb
        rcases Nat.eq_zero_or_pos (n / 2) with hz | hpos2
        · rw [hz, passSteps_eq] at hb
          simp at hb
        · rw [passSteps_head (n / 2) hpos2] at hb
          simp only [Option.mem_some_iff] at hb
          omega

/-- C9 counterexample: at resolution 3 the loop runs a single pass
(step size 1) while the ceiling log2 of 3 is 2, refuting the claimed
pass count of ceiling(log2(size)) for non-powers of two. -/
theorem jfa_pass_count_counterexample :
    (runJFAPassSteps 3).length = 1 ∧ Nat.clog 2 3 = 2 ∧
      (runJFAPassSteps 3).length ≠ Nat.clog 2 3 := by
  have h1 : passSteps 1 = [1] := by
    rw [passSteps_eq]
    norm_num [passSteps_zero]
  have h3 : runJFAPassSteps 3 = [1] := by
    rw [runJFAPassSteps]
    norm_num [h1]
  have hclog : Nat.clog 2 3 = 2 := by
    have hle : Nat.clog 2 3 ≤ 2 :=
      (Nat.le_pow_iff_clog_le (by norm_num)).mp (by norm_num)
    have hge : ¬ Nat.clog 2 3 ≤ 1 := by
      intro hcontra
      have := (Nat.le_pow_iff_clog_le (b := 2) (by norm_num)).mpr hcontra
      norm_num at this
    omega
  refine ⟨by rw [h3]; rfl, hclog, ?_⟩
  rw [h3, hclog]
  norm_num

/-- C9 (amended): for every resolution size at least 2, the flood-pass loop
of runJFAPasses starts at floor(size/2), halves (with floor) at each pass,
visits step size 1 and only positive step sizes, and terminates; the total
number of flood passes equals floor(log2(size)) — which agrees with
ceiling(log2(size)) exactly when size is a power of two. -/
theorem jfa_pass_schedule (size : ℕ) (hsize : 2 ≤ size) :
    (runJFAPassSteps size).head? = some (size / 2) ∧
      List.Chain' (fun a b => b = a / 2) (runJFAPassSteps size) ∧
      1 ∈ runJFAPassSteps size ∧
      (∀ s ∈ runJFAPassSteps size, 1 ≤ s) ∧
      (runJFAPassSteps size).length = Nat.log 2 size := by
  have hdiv : 1 ≤ size / 2 := Nat.one_le_div_iff (by norm_num) |>.mpr hsize
  refine ⟨passSteps_head (size / 2) hdiv, passSteps_chain (size / 2),
    passSteps_mem_one (size / 2) hdiv, passSteps_all_pos (size / 2), ?_⟩
  rw [runJFAPassSteps, passSteps_length (size / 2) hdiv]
  have hlog : Nat.log 2 (size / 2) = Nat.log 2 size - 1 := Nat.log_div_base 2 size
  have hpos : 0 < Nat.log 2 size := Nat.log_pos (by norm_num) hsize
  omega

/-- C9 witness: the amended schedule at resolution 8 (a power of two). -/
theorem jfa_pass_schedule_witness :
    2 ≤ 8 ∧
      ((runJFAPassSteps 8).head? = some (8 / 2) ∧
        List.Chain' (fun a b => b = a / 2) (runJFAPassSteps 8) ∧
        1 ∈ runJFAPassSteps 8 ∧
        (∀ s ∈ runJFAPassSteps 8, 1 ≤ s) ∧
        (runJFAPassSteps 8).length = Nat.log 2 8) :=
  ⟨by norm_num, jfa_pass_schedule 8 (by norm_num)⟩

/-! ### Claims C3 and C6: the physics flux table and the boundary clamp -/

/-- Physics uniforms with threshold 5 in balanced mode, matching the
constants of PhysicsCompute.compute. -/
noncomputable def pU0 : PhysicsUniforms := ⟨5, 1, 0, 1 / 100, 7 / 10, 1 / 10, 3 / 2⟩

/-- A seed resting outside the bounding cube whose score equals the
threshold of `pU0`. -/
noncomputable def pSeed0 : PSeed := ⟨(0.95, 0, 0), (0, 0, 0), 5, 0⟩

theorem cpuFluxDecision_balanced (t s : ℚ) :
    cpuFluxDecision "balanced" t s =
      (if s > t then (true, s - t)
       else if s < t then (false, t - s) else (false, 0)) := by
  rw [cpuFluxDecision, if_pos rfl]

theorem cpuFluxDecision_growthOnly (t s : ℚ) :
    cpuFluxDecision "growthOnly" t s =
      (if s > t then (true, s - t) else (false, 0)) := by
  rw [cpuFluxDecision, if_neg (by decide), if_pos rfl]

theorem cpuFluxDecision_shrinkOnly (t s : ℚ) :
    cpuFluxDecision "shrinkOnly" t s =
      (if s > t then (false, s - t) else (false, 0)) := by
  rw [cpuFluxDecision, if_neg (by decide), if_neg (by decide), if_pos rfl]

theorem cpuFluxDecision_inverse (t s : ℚ) :
    cpuFluxDecision "inverse" t s =
      (if s > t then (false, s - t)
       else if s < t then (true, t - s) else (false, 0)) := by
  rw [cpuFluxDecision, if_neg (by decide), if_neg (by decide), if_neg (by decide),
    if_pos rfl]

/-- C3: the physics flux decision follows the mode table — balanced grows
iff score > threshold and shrinks iff score < threshold; growthOnly grows
iff score > threshold and never shrinks; shrinkOnly shrinks iff
score > threshold and never grows; inverse swaps the balanced actions — with
fluxMagnitude = |score - threshold| exactly when a condition holds and 0
otherwise; the CPU PhysicsEngine switch computes the same table; and a seed
whose flux magnitude is 0 keeps its position (and previous delta) unchanged
by the physics pass. -/
theorem physics_flux_mode_table :
    (∀ t s : ℝ,
      (((fluxDecision 0 t s).1 = true ∧ 0 < (fluxDecision 0 t s).2) ↔ s > t) ∧
      (((fluxDecision 0 t s).1 = false ∧ 0 < (fluxDecision 0 t s).2) ↔ s < t) ∧
      (fluxDecision 0 t s).2 = (if s > t ∨ s < t then |s - t| else 0) ∧
      (((fluxDecision 1 t s).1 = true ∧ 0 < (fluxDecision 1 t s).2) ↔ s > t) ∧
      ¬((fluxDecision 1 t s).1 = false ∧ 0 < (fluxDecision 1 t s).2) ∧
      (fluxDecision 1 t s).2 = (if s > t then |s - t| else 0) ∧
      ¬((fluxDecision 2 t s).1 = true ∧ 0 < (fluxDecision 2 t s).2) ∧
      (((fluxDecision 2 t s).1 = false ∧ 0 < (fluxDecision 2 t s).2) ↔ s > t) ∧
      (fluxDecision 2 t s).2 = (if s > t then |s - t| else 0) ∧
      (((fluxDecision 3 t s).1 = true ∧ 0 < (fluxDecision 3 t s).2) ↔ s < t) ∧
      (((fluxDecision 3 t s).1 = false ∧ 0 < (fluxDecision 3 t s).2) ↔ s > t) ∧
      (fluxDecision 3 t s).2 = (if s > t ∨ s < t then |s - t| else 0)) ∧
    (∀ t s : ℚ,
      ((cpuFluxDecision "balanced" t s).1 = (fluxDecision 0 (t : ℝ) (s : ℝ)).1 ∧
        ((cpuFluxDecision "balanced" t s).2 : ℝ) = (fluxDecision 0 (t : ℝ) (s : ℝ)).2) ∧
      ((cpuFluxDecision "growthOnly" t s).1 = (fluxDecision 1 (t : ℝ) (s : ℝ)).1 ∧
        ((cpuFluxDecision "growthOnly" t s).2 : ℝ) = (fluxDecision 1 (t : ℝ) (s : ℝ)).2) ∧
      ((cpuFluxDecision "shrinkOnly" t s).1 = (fluxDecision 2 (t : ℝ) (s : ℝ)).1 ∧
        ((cpuFluxDecision "shrinkOnly" t s).2 : ℝ) = (fluxDecision 2 (t : ℝ) (s : ℝ)).2) ∧
      ((cpuFluxDecision "inverse" t s).1 = (fluxDecision 3 (t : ℝ) (s : ℝ)).1 ∧
        ((cpuFluxDecision "inverse" t s).2 : ℝ) = (fluxDecision 3 (t : ℝ) (s : ℝ)).2)) ∧
    ∀ (u : PhysicsUniforms) (index : ℕ) (seed : PSeed) (prevDelta : ℝ),
      (fluxDecision u.mode u.threshold seed.acuteCount).2 = 0 →
        physicsMain u index seed prevDelta = (seed, prevDelta) := by
  refine ⟨?_, ?_, ?_⟩
  · intro t s
    rcases lt_trichotomy s t with h | h | h
    · have hgt : ¬ (t < s) := asymm h
      have habs : |s - t| = t - s := by
        rw [abs_of_neg (by linarith : s - t < 0)]
        ring
      simp [fluxDecision, h, hgt, habs]
    · subst h
      simp [fluxDecision, lt_irrefl]
    · have hlt : ¬ (s < t) := asymm h
      have habs : |s - t| = s - t := abs_of_pos (by linarith : 0 < s - t)
      simp [fluxDecision, h, hlt, habs]
  · intro t s
    rcases lt_trichotomy s t with h | h | h
    · have h' : (s : ℝ) < (t : ℝ) := by exact_mod_cast h
      have hgt : ¬ (t < s) := asymm h
      have hgt' : ¬ ((t : ℝ) < (s : ℝ)) := asymm h'
      simp only [cpuFluxDecision_balanced, cpuFluxDecision_growthOnly,
        cpuFluxDecision_shrinkOnly, cpuFluxDecision_inverse, fluxDecision]
      norm_num [h, h', hgt, hgt']
    · subst h
      simp only [cpuFluxDecision_balanced, cpuFluxDecision_growthOnly,
        cpuFluxDecision_shrinkOnly, cpuFluxDecision_inverse, fluxDecision]
      norm_num
    · have h' : (t : ℝ) < (s : ℝ) := by exact_mod_cast h
      have hlt : ¬ (s < t) := asymm h
      have hlt' : ¬ ((s : ℝ) < (t : ℝ)) := asymm h'
      simp only [cpuFluxDecision_balanced, cpuFluxDecision_growthOnly,
        cpuFluxDecision_shrinkOnly, cpuFluxDecision_inverse, fluxDecision]
      norm_num [h, h', hlt, hlt']
  · intro u index seed prevDelta h
    simp only [physicsMain, rawFluxOf, h]
    norm_num

/-- C3 witness: at threshold 5, balanced mode, a seed with score 5 has flux
magnitude 0 and the physics pass leaves it untouched. -/
theorem physics_flux_mode_table_witness :
    (fluxDecision pU0.mode pU0.threshold pSeed0.acuteCount).2 = 0 ∧
      physicsMain pU0 0 pSeed0 0 = (pSeed0, 0) := by
  have h : (fluxDecision pU0.mode pU0.threshold pSeed0.acuteCount).2 = 0 := by
    simp [fluxDecision, pU0, pSeed0]
  exact ⟨h, physics_flux_mode_table.2.2 pU0 0 pSeed0 0 h⟩

/-- C6 counterexample: a generator placed at (0.95, 0, 0) with zero flux
(score exactly at threshold) is returned by the physics update with its
position unchanged, outside the bounding cube [-0.9, 0.9]. -/
theorem physics_clamp_counterexample :
    (physicsMain pU0 0 pSeed0 0).1.position.1 = 0.95 ∧
      ¬((physicsMain pU0 0 pSeed0 0).1.position.1 ≤ 9 / 10) := by
  have h : physicsMain pU0 0 pSeed0 0 = (pSeed0, 0) := by
    simp only [physicsMain, rawFluxOf, fluxDecision, pU0, pSeed0]
    norm_num
  rw [h]
  norm_num [pSeed0]

/-- C6 (amended): after every physics update, each generator's position is
either completely unchanged (the zero-flux early return) or has every
component clamped into the bounding cube [-0.9, 0.9]; in particular
positions already inside the cube stay inside. -/
theorem physics_position_clamped (u : PhysicsUniforms) (index : ℕ) (seed : PSeed)
    (prevDelta : ℝ) :
    (physicsMain u index seed prevDelta).1.position = seed.position ∨
      (-0.9 ≤ (physicsMain u index seed prevDelta).1.position.1 ∧
        (physicsMain u index seed prevDelta).1.position.1 ≤ 0.9 ∧
        -0.9 ≤ (physicsMain u index seed prevDelta).1.position.2.1 ∧
        (physicsMain u index seed prevDelta).1.position.2.1 ≤ 0.9 ∧
        -0.9 ≤ (physicsMain u index seed prevDelta).1.position.2.2 ∧
        (physicsMain u index seed prevDelta).1.position.2.2 ≤ 0.9) := by
  rw [physicsMain]
  split
  · exact Or.inl rfl
  · right
    simp only [clamp3, clampR]
    have h09 : (-0.9 : ℝ) ≤ 0.9 := by norm_num
    refine ⟨le_min (le_max_right _ _) h09, min_le_right _ _,
      le_min (le_max_right _ _) h09, min_le_right _ _,
      le_min (le_max_right _ _) h09, min_le_right _ _⟩

/-! ### Claim C4: the empty-cell centroid fallback -/

/-- Atomic centroid data for one generator that owns no voxels. -/
def c4Atomic : ℕ → ℕ × ℕ × ℕ × ℕ := fun _ => (0, 0, 0, 0)

/-- The previous seed-buffer contents: one generator stored at
(1/2, 1/2, 1/2). -/
def c4Old : ℕ → SeedRow :=
  fun _ => ⟨(1 / 2, 1 / 2, 1 / 2), (1 / 2, 1 / 2, 1 / 2), 0, 0⟩

/-- C4: evaluation of both analysis paths at the failing input (one
generator at position (1/2,1/2,1/2) owning zero voxels).  The GPU
finalizeCentroids pass overwrites the seed buffer with a zero-filled array:
the empty generator's centroid becomes (0,0,0) — not its position — and its
stored position itself is zeroed.  The CPU VoronoiAnalyzer, in contrast,
behaves as the claim states: centroid := position, position untouched. -/
theorem analysis_empty_cell_fallback_bug :
    (finalizeCentroidsPass c4Atomic c4Old 1 0).position = (0, 0, 0) ∧
      (finalizeCentroidsPass c4Atomic c4Old 1 0).centroid = (0, 0, 0) ∧
      (c4Old 0).position = (1 / 2, 1 / 2, 1 / 2) ∧
      (finalizeCentroidsPass c4Atomic c4Old 1 0).position ≠ (c4Old 0).position ∧
      (finalizeCentroidsPass c4Atomic c4Old 1 0).centroid ≠ (c4Old 0).position ∧
      cpuFinalizeCentroid 2 2 2 ⟨(1 / 2, 1 / 2, 1 / 2), (0, 0, 0), 0, (0, 0, 0)⟩ =
        ⟨(1 / 2, 1 / 2, 1 / 2), (0, 0, 0), 0, (1 / 2, 1 / 2, 1 / 2)⟩ := by
  refine ⟨rfl, rfl, rfl, ?_, ?_, rfl⟩
  · intro h
    have h1 : (0 : ℚ) = 1 / 2 := congrArg Prod.fst h
    norm_num at h1
  · intro h
    have h1 : (0 : ℚ) = 1 / 2 := congrArg Prod.fst h
    norm_num at h1

/-! ### Claim C8: cell-id validation never indexes out of bounds -/

/-- C8: the analysis shader's getCellID always returns a value in
[-1, numSeeds): any stored voxel value outside [0, numSeeds) — including
the 4294967295 sentinel — maps to the invalid marker -1; and the centroid
accumulation step never touches an accumulator entry at or beyond numSeeds,
so no voxel value can cause an out-of-bounds accumulator access. -/
theorem analysis_cellid_safety :
    (∀ (grid : ℤ × ℤ × ℤ → ℕ) (size numSeeds : ℕ) (c : ℤ × ℤ × ℤ),
      -1 ≤ getCellID grid size numSeeds c ∧
        getCellID grid size numSeeds c < (numSeeds : ℤ)) ∧
    ∀ (grid : ℤ × ℤ × ℤ → ℕ) (size numSeeds : ℕ) (acc : ℕ → ℕ × ℕ × ℕ × ℕ)
      (c : ℤ × ℤ × ℤ) (k : ℕ), numSeeds ≤ k →
        centroidAccumStep grid size numSeeds acc c k = acc k := by
  constructor
  · intro grid size numSeeds c
    have hnn : (0 : ℤ) ≤ (numSeeds : ℤ) := Int.natCast_nonneg numSeeds
    simp only [getCellID]
    split
    · exact ⟨le_refl _, by omega⟩
    · split
      · exact ⟨le_refl _, by omega⟩
      · constructor
        · omega
        · omega
  · intro grid size numSeeds acc c k hk
    simp only [centroidAccumStep]
    split
    · rename_i hvalid
      have hlt : (getCellID grid size numSeeds c).toNat < numSeeds := by omega
      have hne : k ≠ (getCellID grid size numSeeds c).toNat := by omega
      simp only [hne, if_false]
    · rfl

/-- A grid whose every voxel stores the out-of-range value 5. -/
def c8Grid : ℤ × ℤ × ℤ → ℕ := fun _ => 5

/-- An accumulator state for the C8 witness. -/
def c8Acc : ℕ → ℕ × ℕ × ℕ × ℕ := fun _ => (0, 0, 0, 0)

/-- C8 witness: with 2 generators and corrupted voxel value 5, getCellID is
-1 and the accumulator entry 3 (beyond numSeeds = 2) is untouched. -/
theorem analysis_cellid_safety_witness :
    (2 ≤ 3) ∧
      (-1 ≤ getCellID c8Grid 4 2 (1, 1, 1) ∧ getCellID c8Grid 4 2 (1, 1, 1) < (2 : ℤ)) ∧
      centroidAccumStep c8Grid 4 2 c8Acc (1, 1, 1) 3 = c8Acc 3 :=
  ⟨by norm_num, analysis_cellid_safety.1 c8Grid 4 2 (1, 1, 1),
    analysis_cellid_safety.2 c8Grid 4 2 c8Acc (1, 1, 1) 3 (by norm_num)⟩

/-! ### Claim C5: the junction thresholds of the two analysis paths -/

theorem uniqueValid_fold_spec (l : List ℤ) :
    ∀ acc : List ℤ, acc.Nodup →
      (l.foldl (fun acc id => if 0 ≤ id ∧ id ∉ acc then acc ++ [id] else acc) acc).Nodup ∧
      ∀ x, x ∈ l.foldl (fun acc id => if 0 ≤ id ∧ id ∉ acc then acc ++ [id] else acc) acc ↔
        x ∈ acc ∨ (0 ≤ x ∧ x ∈ l) := by
  induction l with
  | nil =>
      intro acc h
      exact ⟨h, fun x => by simp⟩
  | cons a l ih =>
      intro acc hacc
      simp only [List.foldl_cons]
      by_cases hc : 0 ≤ a ∧ a ∉ acc
      · rw [if_pos hc]
        have hnd : (acc ++ [a]).Nodup := by
          rw [List.nodup_append]
          refine ⟨hacc, List.nodup_singleton a, ?_⟩
          intro x hx hx2
          rw [List.mem_singleton.mp hx2] at hx
          exact hc.2 hx
        obtain ⟨h1, h2⟩ := ih (acc ++ [a]) hnd
        refine ⟨h1, fun x => ?_⟩
        rw [h2 x]
        simp only [List.mem_append, List.mem_singleton, List.mem_cons,
          List.not_mem_nil, or_false]
        constructor
        · rintro ((hx | rfl) | ⟨hx0, hxl⟩)
          · exact Or.inl hx
          · exact Or.inr ⟨hc.1, Or.inl rfl⟩
          · exact Or.inr ⟨hx0, Or.inr hxl⟩
        · rintro (hx | ⟨hx0, rfl | hxl⟩)
          · exact Or.inl (Or.inl hx)
          · exact Or.inl (Or.inr rfl)
          · exact Or.inr ⟨hx0, hxl⟩
      · rw [if_neg hc]
        obtain ⟨h1, h2⟩ := ih acc hacc
        refine ⟨h1, fun x => ?_⟩
        rw [h2 x]
        simp only [List.mem_cons]
        constructor
        · rintro (hx | ⟨hx0, hxl⟩)
          · exact Or.inl hx
          · exact Or.inr ⟨hx0, Or.inr hxl⟩
        · rintro (hx | ⟨hx0, rfl | hxl⟩)
          · exact Or.inl hx
          · rcases not_and_or.mp hc with h | h
            · exact absurd hx0 h
            · exact Or.inl (not_not.mp h)
          · exact Or.inr ⟨hx0, hxl⟩

theorem uniqueValid_length (l : List ℤ) :
    (uniqueValid l).length =
      ((l.filter fun id => decide (0 ≤ id)).dedup).length := by
  obtain ⟨hnd, hmem⟩ := uniqueValid_fold_spec l [] List.nodup_nil
  have hnd2 : ((l.filter fun id => decide (0 ≤ id)).dedup).Nodup :=
    List.nodup_dedup _
  have hperm : List.Perm (uniqueValid l)
      ((l.filter fun id => decide (0 ≤ id)).dedup) := by
    unfold uniqueValid
    rw [List.perm_ext_iff_of_nodup hnd hnd2]
    intro x
    rw [hmem x]
    simp only [List.mem_dedup, List.mem_filter, List.not_mem_nil, false_or,
      decide_eq_true_eq]
    exact and_comm
  exact hperm.length_eq

/-- A 2-cubed RGBA voxel buffer with three generators: the alpha channels
encode cell ids 0, 1, 2 at the first three voxels and 0 elsewhere. -/
def c5Buffer : ℕ → ℚ :=
  fun i =>
    if i = 3 then 1 / 3
    else if i = 7 then 2 / 3
    else if i = 11 then 1
    else if i % 4 = 3 then 1 / 3
    else 0

theorem c5Buffer_corner_ids :
    cpuCornerIds c5Buffer 3 2 2 2 0 0 0 = [0, 1, 2, 0, 0, 0, 0, 0] := by
  simp only [cpuCornerIds, cubeCorners, List.map_cons, List.map_nil]
  simp [cpuGetCellID, c5Buffer]
  norm_num [round_eq]

/-- C5 counterexample: on `c5Buffer` the single interior 2x2x2 cube shows
exactly three distinct valid cell ids (0, 1 and 2) — the claim classifies
this as a junction — yet the CPU analyzer's _findJunctions, which demands
four distinct ids, does not. -/
theorem junction_threshold_counterexample :
    ¬ cpuIsJunction c5Buffer 3 2 2 2 0 0 0 ∧
      3 ≤ (((cpuCornerIds c5Buffer 3 2 2 2 0 0 0).filter
        fun id => decide (id ≠ -1)).dedup).length := by
  constructor
  · rw [cpuIsJunction, cpuCubeIdSet, c5Buffer_corner_ids]
    decide
  · rw [c5Buffer_corner_ids]
    decide

/-- C5 (amended): the GPU analysis pass classifies a 2x2x2 cube as a
junction exactly when the number of distinct valid cell ids among its eight
corner voxels is at least 3, while the CPU VoronoiAnalyzer classifies a cube
as a junction exactly when that number is at least 4. -/
theorem junction_threshold_table :
    (∀ (grid : ℤ × ℤ × ℤ → ℕ) (size numSeeds : ℕ) (c : ℤ × ℤ × ℤ),
      isJunctionGPU grid size numSeeds c ↔
        3 ≤ (((cornerIds grid size numSeeds c).filter
          fun id => decide (0 ≤ id)).dedup).length) ∧
    ∀ (buffer : ℕ → ℚ) (numSeeds w h dp : ℕ) (x y z : ℤ),
      cpuIsJunction buffer numSeeds w h dp x y z ↔
        4 ≤ (((cpuCornerIds buffer numSeeds w h dp x y z).filter
          fun id => decide (id ≠ -1)).dedup).length := by
  constructor
  · intro grid size numSeeds c
    rw [isJunctionGPU, uniqueValid_length]
  · intro buffer numSeeds w h dp x y z
    rw [cpuIsJunction, cpuCubeIdSet]
    have hset : (cpuCornerIds buffer numSeeds w h dp x y z).toFinset.erase (-1) =
        ((cpuCornerIds buffer numSeeds w h dp x y z).filter
          fun id => decide (id ≠ -1)).toFinset := by
      ext b
      simp only [Finset.mem_erase, List.mem_toFinset, List.mem_filter,
        decide_eq_true_eq]
      exact and_comm
    rw [hset, List.card_toFinset]

/-! ### Claim C10: fixed-point centroid encoding accuracy -/

theorem list_map_sum_sub_one (l : List ℤ) (f : ℤ → ℚ) :
    (l.map fun c => f c - 1).sum = (l.map f).sum - l.length := by
  induction l with
  | nil => simp
  | cons a l ih =>
      simp only [List.map_cons, List.sum_cons, ih, List.length_cons]
      push_cast
      ring

theorem list_map_sum_div (l : List ℤ) (f : ℤ → ℚ) (m : ℚ) :
    (l.map fun c => f c / m).sum = (l.map f).sum / m := by
  induction l with
  | nil => simp
  | cons a l ih =>
      simp only [List.map_cons, List.sum_cons, ih, add_div]

theorem sum_gap_le (l : List ℤ) (f g : ℤ → ℚ)
    (h1 : ∀ c ∈ l, g c ≤ f c) (h2 : ∀ c ∈ l, f c - g c ≤ 1) :
    (l.map g).sum ≤ (l.map f).sum ∧
      (l.map f).sum - (l.map g).sum ≤ l.length := by
  induction l with
  | nil => simp
  | cons a l ih =>
      obtain ⟨ih1, ih2⟩ := ih (fun c hc => h1 c (List.mem_cons_of_mem a hc))
        (fun c hc => h2 c (List.mem_cons_of_mem a hc))
      have ha1 := h1 a (List.mem_cons_self a l)
      have ha2 := h2 a (List.mem_cons_self a l)
      simp only [List.map_cons, List.sum_cons, List.length_cons]
      constructor
      · linarith
      · push_cast
        linarith

theorem sum_gap_lt (l : List ℤ) (f g : ℤ → ℚ) (hne : l ≠ [])
    (h1 : ∀ c ∈ l, g c ≤ f c) (h2 : ∀ c ∈ l, f c - g c < 1) :
    (l.map f).sum - (l.map g).sum < l.length := by
  cases l with
  | nil => exact absurd rfl hne
  | cons a l =>
      obtain ⟨_, ih2⟩ := sum_gap_le l f g
        (fun c hc => h1 c (List.mem_cons_of_mem a hc))
        (fun c hc => le_of_lt (h2 c (List.mem_cons_of_mem a hc)))
      have ha2 := h2 a (List.mem_cons_self a l)
      simp only [List.map_cons, List.sum_cons, List.length_cons]
      push_cast
      linarith

theorem encodeFixed_cast (size : ℕ) (c : ℤ) (hc : 0 ≤ c) :
    ((encodeFixed size c : ℕ) : ℚ) = ⌊(worldCoordAxis size c + 1) * 1000000⌋ := by
  have hE0 : (0 : ℚ) ≤ (worldCoordAxis size c + 1) * 1000000 := by
    have hdiv : (0 : ℚ) ≤ (c : ℚ) / (size : ℚ) :=
      div_nonneg (by exact_mod_cast hc) (Nat.cast_nonneg size)
    rw [worldCoordAxis]
    nlinarith
  rw [encodeFixed]
  exact_mod_cast Int.toNat_of_nonneg (Int.floor_nonneg.mpr hE0)

/-- C10: the centroid pass encodes each owned voxel world coordinate w as the
fixed-point value floor((w + 1) * 10^6) accumulated into a u32 sum (wrapping
modulo 2^32 by definition of `accumFixed`); when the accumulated sum stays
below 2^32, the decoded component (sum / 10^6) / voxelCount - 1 equals the
exact mean of the owned voxels' world coordinates to within 10^-6; and a
cell owning at most 2147 in-range voxels can never overflow the 32-bit
accumulator. -/
theorem centroid_fixed_point_accuracy :
    (∀ (size : ℕ) (cs : List ℤ), 0 < size → cs ≠ [] →
      (∀ c ∈ cs, 0 ≤ c) →
      (cs.map (encodeFixed size)).sum < 4294967296 →
      |decodeCentroidComponent (accumFixed size cs) cs.length -
        (cs.map (worldCoordAxis size)).sum / (cs.length : ℚ)| < 1 / 1000000) ∧
    ∀ (size : ℕ) (cs : List ℤ), (∀ c ∈ cs, 0 ≤ c ∧ c < (size : ℤ)) →
      cs.length ≤ 2147 → (cs.map (encodeFixed size)).sum < 4294967296 := by
  constructor
  · intro size cs hsize hne hnn hsum
    have hn0 : (0 : ℚ) < (cs.length : ℚ) := by
      have := List.length_pos.mpr hne
      exact_mod_cast this
    have hmod : accumFixed size cs = (cs.map (encodeFixed size)).sum := by
      rw [accumFixed]
      exact Nat.mod_eq_of_lt hsum
    have hSB : (((cs.map (encodeFixed size)).sum : ℕ) : ℚ) =
        (cs.map fun c => ((encodeFixed size c : ℕ) : ℚ)).sum := by
      rw [Nat.cast_list_sum, List.map_map]
      rfl
    have hg1 : ∀ c ∈ cs, ((encodeFixed size c : ℕ) : ℚ) ≤
        (worldCoordAxis size c + 1) * 1000000 := by
      intro c hc
      rw [encodeFixed_cast size c (hnn c hc)]
      exact Int.floor_le _
    have hg2 : ∀ c ∈ cs, (worldCoordAxis size c + 1) * 1000000 -
        ((encodeFixed size c : ℕ) : ℚ) < 1 := by
      intro c hc
      rw [encodeFixed_cast size c (hnn c hc)]
      have := Int.sub_one_lt_floor ((worldCoordAxis size c + 1) * 1000000)
      linarith
    obtain ⟨hBA, _⟩ := sum_gap_le cs
      (fun c => (worldCoordAxis size c + 1) * 1000000)
      (fun c => ((encodeFixed size c : ℕ) : ℚ)) hg1 (fun c hc => le_of_lt (hg2 c hc))
    have hABn := sum_gap_lt cs
      (fun c => (worldCoordAxis size c + 1) * 1000000)
      (fun c => ((encodeFixed size c : ℕ) : ℚ)) hne hg1 hg2
    have hW : (cs.map (worldCoordAxis size)).sum =
        (cs.map fun c => (worldCoordAxis size c + 1) * 1000000).sum / 1000000 -
          cs.length := by
      have hpt : (cs.map (worldCoordAxis size)) =
          cs.map fun c => ((worldCoordAxis size c + 1) * 1000000) / 1000000 - 1 := by
        apply List.map_congr_left
        intro c _
        field_simp
      rw [hpt, list_map_sum_sub_one cs
        (fun c => ((worldCoordAxis size c + 1) * 1000000) / 1000000),
        list_map_sum_div cs (fun c => (worldCoordAxis size c + 1) * 1000000) 1000000]
    set A : ℚ := (cs.map fun c => (worldCoordAxis size c + 1) * 1000000).sum
    set B : ℚ := (cs.map fun c => ((encodeFixed size c : ℕ) : ℚ)).sum
    set n : ℚ := (cs.length : ℚ)
    rw [decodeCentroidComponent, hmod, hSB, hW]
    have key : ((B : ℚ) / 1000000) / n - 1 - (A / 1000000 - n) / n =
        (B - A) / (1000000 * n) := by
      field_simp
    rw [key, abs_div, abs_of_pos (by positivity : (0 : ℚ) < 1000000 * n),
      abs_sub_comm B A, abs_of_nonneg (by linarith : (0 : ℚ) ≤ A - B),
      div_lt_div_iff₀ (by positivity) (by norm_num : (0 : ℚ) < 1000000)]
    nlinarith
  · intro size cs hrange hlen
    have hbound : ∀ x ∈ cs.map (encodeFixed size), x ≤ 1999999 := by
      intro x hx
      obtain ⟨c, hc, rfl⟩ := List.mem_map.mp hx
      obtain ⟨hc0, hcs⟩ := hrange c hc
      have hs1 : 0 < size := by
        rcases Nat.eq_zero_or_pos size with rfl | h
        · simp at hcs
          omega
        · exact h
      have hlt : (c : ℚ) / (size : ℚ) < 1 := by
        rw [div_lt_one (by exact_mod_cast hs1)]
        exact_mod_cast hcs
      have hEf : (worldCoordAxis size c + 1) * 1000000 < 2000000 := by
        rw [worldCoordAxis]
        nlinarith
      have hfl : ⌊(worldCoordAxis size c + 1) * 1000000⌋ < 2000000 :=
        Int.floor_lt.mpr (by exact_mod_cast hEf)
      rw [encodeFixed]
      omega
    have hsum := List.sum_le_card_nsmul (cs.map (encodeFixed size)) 1999999 hbound
    rw [List.length_map, smul_eq_mul] at hsum
    have : cs.length * 1999999 ≤ 2147 * 1999999 :=
      Nat.mul_le_mul_right 1999999 hlen
    omega

/-- C10 witness: three voxels at coordinates 0, 1, 2 of a 4-cubed volume. -/
theorem centroid_fixed_point_accuracy_witness :
    ((0 < 4 ∧ ([0, 1, 2] : List ℤ) ≠ [] ∧ (∀ c ∈ ([0, 1, 2] : List ℤ), 0 ≤ c) ∧
        (([0, 1, 2] : List ℤ).map (encodeFixed 4)).sum < 4294967296) ∧
      |decodeCentroidComponent (accumFixed 4 [0, 1, 2]) ([0, 1, 2] : List ℤ).length -
        (([0, 1, 2] : List ℤ).map (worldCoordAxis 4)).sum /
          ((([0, 1, 2] : List ℤ).length : ℚ))| < 1 / 1000000) ∧
      (∀ c ∈ ([0, 1, 2] : List ℤ), 0 ≤ c ∧ c < (4 : ℤ)) ∧
      ([0, 1, 2] : List ℤ).length ≤ 2147 ∧
      (([0, 1, 2] : List ℤ).map (encodeFixed 4)).sum < 4294967296 := by
  have heval : ∀ (c : ℤ) (k : ℕ),
      ⌊(worldCoordAxis 4 c + 1) * 1000000⌋ = (k : ℤ) → encodeFixed 4 c = k := by
    intro c k h
    rw [encodeFixed, h, Int.toNat_natCast]
  have he0 : encodeFixed 4 0 = 0 := heval 0 0 (by norm_num [worldCoordAxis])
  have he1 : encodeFixed 4 1 = 500000 := heval 1 500000 (by norm_num [worldCoordAxis])
  have he2 : encodeFixed 4 2 = 1000000 :=
    heval 2 1000000 (by norm_num [worldCoordAxis])
  have hsum : (([0, 1, 2] : List ℤ).map (encodeFixed 4)).sum < 4294967296 := by
    simp [he0, he1, he2]
  have hr : ∀ c ∈ ([0, 1, 2] : List ℤ), 0 ≤ c ∧ c < (4 : ℤ) := by decide
  have hn : ∀ c ∈ ([0, 1, 2] : List ℤ), (0 : ℤ) ≤ c := by decide
  have hne : ([0, 1, 2] : List ℤ) ≠ [] := by decide
  exact ⟨⟨⟨by norm_num, hne, hn, hsum⟩,
      centroid_fixed_point_accuracy.1 4 [0, 1, 2] (by norm_num) hne hn hsum⟩,
    hr, by norm_num,
    centroid_fixed_point_accuracy.2 4 [0, 1, 2] hr (by norm_num)⟩

/-! ### Claim C7: the acute-pair increment at a junction -/

/-- A lower bound on pi sharp enough to separate pi/2 from the shader's
threshold constant 1.5707963, via the nested-radical certificate of
`Real.pi_lower_bound_start` at depth 13. -/
theorem pi_gt_certificate : (3.14159263 : ℝ) < Real.pi := by
  apply Real.pi_lower_bound_start 13
  apply Real.sqrtTwoAddSeries_step_up 1414213562373095049 1000000000000000000
  apply Real.sqrtTwoAddSeries_step_up 1847759065022573513 1000000000000000000
  apply Real.sqrtTwoAddSeries_step_up 1961570560806460899 1000000000000000000
  apply Real.sqrtTwoAddSeries_step_up 1990369453344393773 1000000000000000000
  apply Real.sqrtTwoAddSeries_step_up 998795456205172393 500000000000000000
  apply Real.sqrtTwoAddSeries_step_up 1999397637392408441 1000000000000000000
  apply Real.sqrtTwoAddSeries_step_up 1999849403678289083 1000000000000000000
  apply Real.sqrtTwoAddSeries_step_up 999981175282601143 500000000000000000
  apply Real.sqrtTwoAddSeries_step_up 249998823452394043 125000000000000000
  apply Real.sqrtTwoAddSeries_step_up 1999997646903403821 1000000000000000000
  apply Real.sqrtTwoAddSeries_step_up 1999999411725764439 1000000000000000000
  apply Real.sqrtTwoAddSeries_step_up 1999999852931435703 1000000000000000000
  apply Real.sqrtTwoAddSeries_step_up 499999990808214647 250000000000000000
  · norm_num [Real.sqrtTwoAddSeries]
  all_goals norm_num

theorem threshold_lt_pi_div_two : (1.5707963 : ℝ) < Real.pi / 2 := by
  have h := pi_gt_certificate
  norm_num at h ⊢
  linarith

/-- C7 counterexample: a pair of seeds at a realistic junction position
(the cube-center of voxel (0,0,0) at resolution 2) whose angle is below
pi/2 — so the claim requires both acute counters to be incremented — but at
or above the shader's literal threshold 1.5707963, so the shader increments
neither counter. -/
noncomputable def cexJ : ℝ × ℝ × ℝ := (-(1 / 2), -(1 / 2), -(1 / 2))

/-- Seed A of the C7 counterexample, at unit offset along x from `cexJ`. -/
noncomputable def cexA : ℝ × ℝ × ℝ := (-(1 / 2) + 1, -(1 / 2), -(1 / 2))

/-- Seed B of the C7 counterexample, offset (10^-8, 1, 0) from `cexJ`. -/
noncomputable def cexB : ℝ × ℝ × ℝ := (-(1 / 2) + 1 / 100000000, -(1 / 2) + 1, -(1 / 2))

/-- The seed positions of the C7 counterexample. -/
noncomputable def cexSeeds : ℕ → ℝ × ℝ × ℝ := fun k => if k = 0 then cexA else cexB

theorem cex_dot_eval :
    rdot (normalizeV (rsub cexA cexJ)) (normalizeV (rsub cexB cexJ)) =
      (1 / 100000000) / Real.sqrt ((1 / 100000000) * (1 / 100000000) + 1) := by
  have hA : rsub cexA cexJ = (1, 0, 0) := by
    norm_num [rsub, cexA, cexJ]
  have hB : rsub cexB cexJ = (1 / 100000000, 1, 0) := by
    norm_num [rsub, cexB, cexJ]
  rw [hA, hB]
  have h1 : rdot (1, 0, 0) (1, 0, 0) = 1 := by norm_num [rdot]
  have h2 : rdot ((1 : ℝ) / 100000000, 1, 0) (1 / 100000000, 1, 0) =
      (1 / 100000000) * (1 / 100000000) + 1 := by norm_num [rdot]
  rw [normalizeV, normalizeV, h1, h2, Real.sqrt_one]
  norm_num [rdot]

theorem cex_dot_bounds :
    0 < (1 / 100000000 : ℝ) / Real.sqrt ((1 / 100000000) * (1 / 100000000) + 1) ∧
      (1 / 100000000 : ℝ) / Real.sqrt ((1 / 100000000) * (1 / 100000000) + 1) ≤
        1 / 100000000 := by
  have hr1 : (1 : ℝ) ≤ Real.sqrt ((1 / 100000000) * (1 / 100000000) + 1) := by
    rw [Real.one_le_sqrt]
    nlinarith
  constructor
  · exact div_pos (by norm_num) (by linarith)
  · exact div_le_self (by norm_num) hr1

theorem cex_angle_ge_threshold :
    (1.5707963 : ℝ) ≤ pairAngle cexA cexB cexJ := by
  set s : ℝ := (1 / 100000000 : ℝ) /
    Real.sqrt ((1 / 100000000) * (1 / 100000000) + 1) with hs
  obtain ⟨hs0, hs1⟩ := cex_dot_bounds
  have hclamp : clampR s (-1) 1 = s := by
    rw [clampR, max_eq_left (by linarith), min_eq_left (by linarith)]
  rw [pairAngle, cex_dot_eval, ← hs, hclamp,
    Real.arccos_eq_pi_div_two_sub_arcsin]
  have hsin : (1 / 100000000 : ℝ) < Real.sin (15 / 1000000000) := by
    have hcube := Real.sin_gt_sub_cube
      (by norm_num : (0 : ℝ) < 15 / 1000000000) (by norm_num)
    nlinarith
  have harcsin : Real.arcsin s ≤ 15 / 1000000000 := by
    rw [Real.arcsin_le_iff_le_sin (Set.mem_Icc.mpr ⟨by linarith, by linarith⟩)
      (Set.mem_Icc.mpr ⟨by linarith [Real.pi_gt_three],
        by linarith [Real.pi_gt_three]⟩)]
    linarith
  have hpi := pi_gt_certificate
  norm_num at hpi ⊢
  linarith

theorem cex_angle_lt_pi_div_two :
    pairAngle cexA cexB cexJ < Real.pi / 2 := by
  set s : ℝ := (1 / 100000000 : ℝ) /
    Real.sqrt ((1 / 100000000) * (1 / 100000000) + 1) with hs
  obtain ⟨hs0, hs1⟩ := cex_dot_bounds
  have hclamp : clampR s (-1) 1 = s := by
    rw [clampR, max_eq_left (by linarith), min_eq_left (by linarith)]
  rw [pairAngle, cex_dot_eval, ← hs, hclamp]
  exact Real.arccos_lt_pi_div_two.mpr hs0

theorem junction_pair_pi_half_counterexample :
    pairAngle cexA cexB cexJ < Real.pi / 2 ∧
      pairStep cexSeeds cexJ 2 (fun _ => 0) (0, 1) 0 = 0 ∧
      pairStep cexSeeds cexJ 2 (fun _ => 0) (0, 1) 1 = 0 := by
  refine ⟨cex_angle_lt_pi_div_two, ?_, ?_⟩ <;>
  · rw [pairStep]
    have hseeds0 : cexSeeds 0 = cexA := by rw [cexSeeds]; norm_num
    have hseeds1 : cexSeeds 1 = cexB := by rw [cexSeeds]; norm_num
    have hcond : ((0 : ℕ) < 2 ∧ (1 : ℕ) < 2) := by norm_num
    rw [if_pos hcond]
    simp only [hseeds0, hseeds1]
    rw [if_neg (not_lt.mpr cex_angle_ge_threshold)]

/-- C7 (amended): for every junction pair of distinct cell ids, if the pair
angle is below the shader's threshold constant 1.5707963 (the WGSL literal
standing for pi/2, which in exact arithmetic is a hair below pi/2) and both
ids are in range, then both seeds' acute counters are incremented by exactly
one; the increment is always applied to both members of the pair or to
neither, never to only one; and no other counter is touched. -/
theorem junction_pair_increment (seeds : ℕ → ℝ × ℝ × ℝ) (j : ℝ × ℝ × ℝ)
    (numSeeds : ℕ) (counts : ℕ → ℕ) (idA idB : ℕ) (hne : idA ≠ idB) :
    (idA < numSeeds → idB < numSeeds →
      pairAngle (seeds idA) (seeds idB) j < 1.5707963 →
      pairStep seeds j numSeeds counts (idA, idB) idA = counts idA + 1 ∧
        pairStep seeds j numSeeds counts (idA, idB) idB = counts idB + 1) ∧
      (pairStep seeds j numSeeds counts (idA, idB) idA = counts idA + 1 ↔
        pairStep seeds j numSeeds counts (idA, idB) idB = counts idB + 1) ∧
      ∀ k, k ≠ idA → k ≠ idB →
        pairStep seeds j numSeeds counts (idA, idB) k = counts k := by
  by_cases hrange : idA < numSeeds ∧ idB < numSeeds
  · by_cases hacute : pairAngle (seeds idA) (seeds idB) j < 1.5707963
    · have hstep : pairStep seeds j numSeeds counts (idA, idB) =
          fun k => counts k + (if k = idA then 1 else 0) + (if k = idB then 1 else 0) := by
        rw [pairStep, if_pos hrange, if_pos hacute]
      rw [hstep]
      refine ⟨fun _ _ _ => ⟨?_, ?_⟩, ⟨fun _ => ?_, fun _ => ?_⟩, fun k hkA hkB => ?_⟩
      · simp [hne]
      · simp [Ne.symm hne]
      · simp [Ne.symm hne]
      · simp [hne]
      · simp [hkA, hkB]
    · have hstep : pairStep seeds j numSeeds counts (idA, idB) = counts := by
        rw [pairStep, if_pos hrange, if_neg hacute]
      rw [hstep]
      refine ⟨fun _ _ h => absurd h hacute, ?_, fun k _ _ => rfl⟩
      constructor <;> intro h <;> omega
  · have hstep : pairStep seeds j numSeeds counts (idA, idB) = counts := by
      rw [pairStep, if_neg hrange]
    rw [hstep]
    refine ⟨fun h1 h2 _ => absurd ⟨h1, h2⟩ hrange, ?_, fun k _ _ => rfl⟩
    constructor <;> intro h <;> omega

/-- C7 witness: two distinct ids whose seeds coincide one unit from the
junction: the angle is 0, below the threshold, and both counters are
incremented to 1; unrelated counters stay 0. -/
theorem junction_pair_increment_witness :
    ((0 : ℕ) ≠ 1 ∧ (0 : ℕ) < 2 ∧ (1 : ℕ) < 2 ∧
        pairAngle ((fun _ => cexA) 0) ((fun _ => cexA) 1) cexJ < 1.5707963) ∧
      pairStep (fun _ => cexA) cexJ 2 (fun _ => 0) (0, 1) 0 = 0 + 1 ∧
        pairStep (fun _ => cexA) cexJ 2 (fun _ => 0) (0, 1) 1 = 0 + 1 := by
  have hang : pairAngle cexA cexA cexJ < 1.5707963 := by
    have hA : rsub cexA cexJ = (1, 0, 0) := by
      norm_num [rsub, cexA, cexJ]
    have h1 : rdot (1, 0, 0) (1, 0, 0) = 1 := by norm_num [rdot]
    have hnorm : normalizeV ((1 : ℝ), (0 : ℝ), (0 : ℝ)) = (1, 0, 0) := by
      rw [normalizeV, h1, Real.sqrt_one]
      norm_num
    have hdot : rdot (normalizeV (rsub cexA cexJ)) (normalizeV (rsub cexA cexJ)) = 1 := by
      rw [hA, hnorm, h1]
    have hclamp : clampR 1 (-1) 1 = 1 := by
      rw [clampR, max_eq_left (by norm_num), min_eq_left (by norm_num)]
    rw [pairAngle, hdot, hclamp, Real.arccos_one]
    norm_num
  exact ⟨⟨by norm_num, by norm_num, by norm_num, hang⟩,
    (junction_pair_increment (fun _ => cexA) cexJ 2 (fun _ => 0) 0 1
      (by norm_num)).1 (by norm_num) (by norm_num) hang⟩
